import Mathlib

/-!
Verification of the post-fire vegetation recovery scenario runner.

The repository's `run_scenarios.py` builds, for each of five scenarios, a
declarative rule set (a Josh model) from a parameter file, runs an external
engine on it, and combines the per-scenario CSV outputs.  The simulation
semantics live in the expression text emitted by `generate_model`
(src/run_scenarios.py lines 107-239); we embed those emitted expressions,
the `.jshc` parameter parser (`parse_jshc`, lines 37-53), and the result
aggregator (`combine_results`, lines 277-304) as Lean definitions and prove
the specification's properties about them.

Numeric values are modelled as rationals (`ℚ`); parameters that the source
truncates with `int(...)` are natural numbers (the parser only ever yields
non-negative values, see `parse_jshc` below).
-/

namespace Josh

/-- The three life stages of a `NativeTree` organism
(`state.init`, src/run_scenarios.py line 207). -/
inductive Stage where
  | Seedling : Stage
  | Juvenile : Stage
  | Adult : Stage
deriving DecidableEq

/-- Parameters extracted from the config in `generate_model`
(src/run_scenarios.py lines 60-104).  Fields that the source wraps in
`int(...)` are naturals; `high_threshold`, `med_threshold` and
`tree_suppression` are kept as raw rationals, exactly as in the source. -/
structure Params where
  total_steps : Nat
  initial_trees : Nat
  max_trees : Nat
  seedling_to_juvenile : Nat
  juvenile_to_adult : Nat
  seedling_mortality : Nat
  juvenile_mortality : Nat
  adult_mortality : Nat
  seedling_invasive_pressure : Nat
  invasive_pressure_threshold : Nat
  fire_high_seedling : Nat
  fire_high_juvenile : Nat
  fire_high_adult : Nat
  fire_med_seedling : Nat
  fire_med_juvenile : Nat
  fire_med_adult : Nat
  fire_low_seedling : Nat
  fire_low_juvenile : Nat
  fire_low_adult : Nat
  high_threshold : ℚ
  med_threshold : ℚ
  baseline_invasive : Nat
  fire_high_invasive : Nat
  fire_med_invasive : Nat
  fire_low_invasive : Nat
  establishment_threshold : Nat
  base_growth : Nat
  post_fire_bonus : Nat
  post_fire_duration : Nat
  tree_suppression : ℚ
  removal_duration : Nat
  age_min : Nat
  age_max : Nat
deriving DecidableEq

/-- The scenario-specific structural knobs emitted into the patch rules:
`seedingBoost.init` (line 159), `removalEffort.init` (line 160), and the
`has_fire` flag that selects the fire-specific expression variants
(lines 107-123). -/
structure RuleSet where
  has_fire : Bool
  seedingBoost : Nat
  removalEffort : ℚ
deriving DecidableEq

/-- The fixed scenario table `SCENARIOS`
(src/run_scenarios.py lines 28-34): name, has_fire, seeding_boost,
removal_effort. -/
def SCENARIOS : List (String × Bool × Nat × ℚ) :=
  [("baseline", false, 0, 0),
   ("fire_only", true, 0, 0),
   ("fire_seeding", true, 8, 0),
   ("fire_removal", true, 0, 12),
   ("fire_both", true, 8, 12)]

/-- The rule set `generate_model` produces for given structural knobs. -/
def genRuleSet (hf : Bool) (sb : Nat) (re : ℚ) : RuleSet :=
  ⟨hf, sb, re⟩

/-- The fire-mortality expression emitted when `has_fire` holds
(src/run_scenarios.py lines 109-116): a nest of conditionals keyed on
`here.fireSeverity` against the two thresholds (strict `>`) and on
`current.state`. -/
def fireMortalityFire (p : Params) (sev : ℚ) (st : Stage) : ℚ :=
  if sev > p.high_threshold ∧ st = Stage.Seedling then p.fire_high_seedling
  else if sev > p.high_threshold ∧ st = Stage.Juvenile then p.fire_high_juvenile
  else if sev > p.high_threshold ∧ st = Stage.Adult then p.fire_high_adult
  else if sev > p.med_threshold ∧ st = Stage.Seedling then p.fire_med_seedling
  else if sev > p.med_threshold ∧ st = Stage.Juvenile then p.fire_med_juvenile
  else if sev > p.med_threshold ∧ st = Stage.Adult then p.fire_med_adult
  else if st = Stage.Seedling then p.fire_low_seedling
  else if st = Stage.Juvenile then p.fire_low_juvenile
  else p.fire_low_adult

/-- `fireMortality.init` (line 210): the fire expression under fire, the
constant `0 percent` otherwise (line 121). -/
def fireMortality (p : Params) (rs : RuleSet) (sev : ℚ) (st : Stage) : ℚ :=
  if rs.has_fire then fireMortalityFire p sev st else 0

/-- `invasiveCover.init` under fire (src/run_scenarios.py line 117):
three-tier selection on `fireSeverity` with strict comparisons. -/
def invasiveInitFire (p : Params) (sev : ℚ) : ℚ :=
  if sev > p.high_threshold then p.fire_high_invasive
  else if sev > p.med_threshold then p.fire_med_invasive
  else p.fire_low_invasive

/-- `invasiveCover.init` (line 179): tiered under fire, the single
`baselineInvasiveCover` constant otherwise (line 122). -/
def invasiveInit (p : Params) (rs : RuleSet) (sev : ℚ) : ℚ :=
  if rs.has_fire then invasiveInitFire p sev else p.baseline_invasive

/-- `postFireBonus.step` (lines 118 and 123): the bonus while
`stepCount < postFireBonusDuration` under fire, else `0 percent`. -/
def postFireBonusStep (p : Params) (rs : RuleSet) (stepCount : Nat) : ℚ :=
  if rs.has_fire then
    (if stepCount < p.post_fire_duration then (p.post_fire_bonus : ℚ) else 0)
  else 0

/-- `activeRemoval.step` (line 185):
`removalEffort if stepCount < removalDuration else 0 percent`. -/
def activeRemoval (p : Params) (rs : RuleSet) (stepCount : Nat) : ℚ :=
  if stepCount < p.removal_duration then rs.removalEffort else 0

/-- `treeSuppression.step` (line 187):
`coeff * (numTrees / maxTrees) if numTrees > 0 else 0`. -/
def treeSuppressionStep (p : Params) (numTrees : Nat) : ℚ :=
  if numTrees > 0 then p.tree_suppression * ((numTrees : ℚ) / (p.max_trees : ℚ))
  else 0

/-- `growthRate.step` (line 188). -/
def growthRate (p : Params) (rs : RuleSet) (stepCount numTrees : Nat) : ℚ :=
  ((p.base_growth : ℚ) + postFireBonusStep p rs stepCount)
    * (1 - treeSuppressionStep p numTrees)

/-- `netGrowth.step` (line 189):
`growthRate * (1 - prior.invasiveCover / 100) - activeRemoval`. -/
def netGrowth (p : Params) (rs : RuleSet) (prior : ℚ) (stepCount numTrees : Nat) : ℚ :=
  growthRate p rs stepCount numTrees * (1 - prior / 100) - activeRemoval p rs stepCount

/-- `rawCover.step` (line 191). -/
def rawCover (p : Params) (rs : RuleSet) (prior : ℚ) (stepCount numTrees : Nat) : ℚ :=
  prior + netGrowth p rs prior stepCount numTrees

/-- `invasiveCover.step` (line 192):
`0 if rawCover < 0 else (100 if rawCover > 100 else rawCover)`. -/
def invasiveCoverStep (p : Params) (rs : RuleSet) (prior : ℚ) (stepCount numTrees : Nat) : ℚ :=
  if rawCover p rs prior stepCount numTrees < 0 then 0
  else if rawCover p rs prior stepCount numTrees > 100 then 100
  else rawCover p rs prior stepCount numTrees

/-- `roomForSeedlings.step` (line 169): `maxTreesPerPatch - numTrees`,
an integer that may be negative. -/
def roomForSeedlings (p : Params) (numTrees : Nat) : ℤ :=
  (p.max_trees : ℤ) - (numTrees : ℤ)

/-- `hasRoom.step` (line 170). -/
def hasRoom (p : Params) (numTrees : Nat) : Prop :=
  roomForSeedlings p numTrees > 0

instance (p : Params) (numTrees : Nat) : Decidable (hasRoom p numTrees) := by
  unfold hasRoom; infer_instance

/-- `canEstablish.step` (line 171): `invasiveCover < establishmentThreshold`. -/
def canEstablish (p : Params) (cover : ℚ) : Prop :=
  cover < (p.establishment_threshold : ℚ)

instance (p : Params) (cover : ℚ) : Decidable (canEstablish p cover) := by
  unfold canEstablish; infer_instance

/-- `potentialSeedlings.step` (line 173). -/
def potentialSeedlings (p : Params) (numAdults numTrees : Nat) (cover : ℚ) : ℤ :=
  if canEstablish p cover ∧ hasRoom p numTrees then (numAdults : ℤ) else 0

/-- `limitedSeedlings.step` (line 174):
`potential if potential < room else room`. -/
def limitedSeedlings (p : Params) (numAdults numTrees : Nat) (cover : ℚ) : ℤ :=
  if potentialSeedlings p numAdults numTrees cover < roomForSeedlings p numTrees
  then potentialSeedlings p numAdults numTrees cover
  else roomForSeedlings p numTrees

/-- `actualNewSeedlings.step` (line 175):
`limited if limited > 0 else 0`. -/
def actualNewSeedlings (p : Params) (numAdults numTrees : Nat) (cover : ℚ) : ℤ :=
  if limitedSeedlings p numAdults numTrees cover > 0
  then limitedSeedlings p numAdults numTrees cover
  else 0

/-- One `NativeTree` organism: `age`, `state`, `alive`
(src/run_scenarios.py lines 204-238). -/
structure Organism where
  age : Nat
  state : Stage
  alive : Bool
deriving DecidableEq

/-- `state.init` (line 207): the initial stage derived from the sampled age. -/
def stateInit (p : Params) (age : Nat) : Stage :=
  if age ≥ p.juvenile_to_adult then Stage.Adult
  else if age ≥ p.seedling_to_juvenile then Stage.Juvenile
  else Stage.Seedling

/-- Organism creation at simulation start (lines 206-211): the age is a
uniform sample (here an input), the stage derives from it, and `alive.init`
is the birth fire-mortality roll `fireDeathRoll > fireMortality`. -/
def initOrganism (p : Params) (rs : RuleSet) (sev : ℚ) (age : Nat)
    (fireDeathRoll : ℚ) : Organism :=
  ⟨age, stateInit p age, decide (fireDeathRoll > fireMortality p rs sev (stateInit p age))⟩

/-- Seedling total mortality for one step (lines 216-218): base mortality
plus the invasive-pressure penalty when the patch cover exceeds
`invasivePressureThreshold`. -/
def seedlingTotalMortality (p : Params) (cover : ℚ) : ℚ :=
  (p.seedling_mortality : ℚ)
    + (if cover > (p.invasive_pressure_threshold : ℚ)
       then (p.seedling_invasive_pressure : ℚ) else 0)

/-- One organism step (lines 213-236): `age.step = prior.age + 1`, then the
state-specific mortality roll `alive.step = deathRoll > mortality`, then the
forward transition `state.step:if(age ≥ threshold and alive)`. -/
def stepOrganism (p : Params) (cover : ℚ) (deathRoll : ℚ) (o : Organism) : Organism :=
  let age' := o.age + 1
  match o.state with
  | Stage.Seedling =>
      let alive' := decide (deathRoll > seedlingTotalMortality p cover)
      let state' := if age' ≥ p.seedling_to_juvenile ∧ alive' = true
                    then Stage.Juvenile else Stage.Seedling
      ⟨age', state', alive'⟩
  | Stage.Juvenile =>
      let alive' := decide (deathRoll > (p.juvenile_mortality : ℚ))
      let state' := if age' ≥ p.juvenile_to_adult ∧ alive' = true
                    then Stage.Adult else Stage.Juvenile
      ⟨age', state', alive'⟩
  | Stage.Adult =>
      ⟨age', Stage.Adult, decide (deathRoll > (p.adult_mortality : ℚ))⟩

/-- Modelled from the spec: the engine's mid-run `create ... of NativeTree`
(line 177) appends new Seedlings; the engine semantics for mid-run creation
is not part of this repository, and the spec states the created organisms
start at age 0 and are not subject to the birth fire-mortality roll. -/
def newSeedling : Organism :=
  ⟨0, Stage.Seedling, true⟩

/-- Step every organism of a list, each with its own independent draw
(`deathRoll.step = sample uniform ...`, one fresh draw per organism). -/
def stepAll (p : Params) (cover : ℚ) (draws : Nat → ℚ) :
    Nat → List Organism → List Organism
  | _, [] => []
  | i, o :: rest => stepOrganism p cover (draws i) o :: stepAll p cover draws (i + 1) rest

/-- Per-patch state across steps (src/run_scenarios.py lines 157-202):
the organism collection, `invasiveCover`, `stepCount`, and the
run-invariant `fireSeverity`. -/
structure PatchState where
  pop : List Organism
  invasiveCover : ℚ
  stepCount : Nat
  fireSeverity : ℚ
deriving DecidableEq

/-- `numAdults.step` (line 167): `count(NativeTree[NativeTree.state == "Adult"])`. -/
def numAdultsOf (trees : List Organism) : Nat :=
  (trees.filter (fun o => o.state = Stage.Adult)).length

/-- One patch step, wiring the emitted rules together:
`NativeTree.start` filters the prior population to the living (line 165),
the counts and the recruitment chain (lines 167-175) feed
`NativeTree.end = prior.NativeTree | create actualNewSeedlings` (line 177),
`stepCount` increments (line 182) and `invasiveCover` follows the
recurrence (lines 184-192).  The unqualified `invasiveCover` read by
`canEstablish` (line 171) and by the Seedling invasive-pressure rule
(line 217) is the current step's value. -/
def stepPatch (p : Params) (rs : RuleSet) (draws : Nat → ℚ) (s : PatchState) : PatchState :=
  let living := s.pop.filter (fun o => o.alive)
  let numAdults := numAdultsOf living
  let numTrees := living.length
  let stepCount' := s.stepCount + 1
  let cover' := invasiveCoverStep p rs s.invasiveCover stepCount' numTrees
  let n := (actualNewSeedlings p numAdults numTrees cover').toNat
  ⟨stepAll p cover' draws 0 living ++ List.replicate n newSeedling,
   cover', stepCount', s.fireSeverity⟩

/-- Patch initialization (lines 159-164, 179-181):
`fireSeverity.init` is external data under fire and `0` otherwise
(lines 108, 120, 162), the initial population is `initialTreesPerPatch`
organisms with sampled ages and birth rolls (line 164), `invasiveCover.init`
is the tiered expression, and `stepCount.init = 0`. -/
def initPatch (p : Params) (rs : RuleSet) (externalSeverity : ℚ)
    (ages : Nat → Nat) (fireRolls : Nat → ℚ) : PatchState :=
  let sev := if rs.has_fire then externalSeverity else 0
  ⟨(List.range p.initial_trees).map (fun i => initOrganism p rs sev (ages i) (fireRolls i)),
   invasiveInit p rs sev, 0, sev⟩

/-- Run a patch for `k` steps, with fresh draws each step. -/
def runPatch (p : Params) (rs : RuleSet) (draws : Nat → Nat → ℚ) :
    Nat → PatchState → PatchState
  | 0, s => s
  | k + 1, s => stepPatch p rs (draws k) (runPatch p rs draws k s)

/-! ### The `.jshc` parameter parser (src/run_scenarios.py lines 37-53) -/

/-- The character class of the regex group `([0-9.]+)`. -/
def isDigitDot (c : Char) : Bool :=
  c.isDigit || c = '.'

/-- The character class of the regex group `(\w*)`. -/
def isWordChar (c : Char) : Bool :=
  c.isAlphanum || c = '_'

/-- `line.split('#')[0]`: everything before the first `#`. -/
def stripComment (l : List Char) : List Char :=
  l.takeWhile (fun c => c ≠ '#')

/-- Python `str.strip()`: drop leading and trailing whitespace. -/
def pyStrip (l : List Char) : List Char :=
  ((l.dropWhile Char.isWhitespace).reverse.dropWhile Char.isWhitespace).reverse

/-- The numeric value of a digit string. -/
def digitsVal (l : List Char) : Nat :=
  l.foldl (fun n c => 10 * n + (c.toNat - Char.toNat '0')) 0

/-- Python `float(tok)` on a token drawn from the class `[0-9.]`:
defined exactly on `d+`, `d+.d*` and `.d+`; a token with no digit or more
than one dot raises `ValueError` (modelled as `none`). -/
def pyFloat (tok : List Char) : Option ℚ :=
  match tok.splitOn '.' with
  | [a] => if a ≠ [] then some ((digitsVal a : ℚ)) else none
  | [a, b] =>
      if a ++ b ≠ [] then some ((digitsVal a : ℚ) + (digitsVal b : ℚ) / 10 ^ b.length)
      else none
  | _ => none

/-- `line.split('#')[0].strip()` (line 42). -/
def lineBody (line : List Char) : List Char :=
  pyStrip (stripComment line)

/-- The stripped key of `line.split('=', 1)` (lines 44-45). -/
def lineKey (line : List Char) : List Char :=
  pyStrip ((lineBody line).takeWhile (fun c => c ≠ '='))

/-- The stripped value of `line.split('=', 1)` (lines 44-46). -/
def lineValue (line : List Char) : List Char :=
  pyStrip (((lineBody line).dropWhile (fun c => c ≠ '=')).tail)

/-- One line of `parse_jshc` (lines 41-52): strip the comment and
whitespace; if the line has an `=`, split once into key and value; the
regex `([0-9.]+)\s*(\w*)` anchored at the value's start records the key
only when the value begins with a digit-or-dot token; `float` on that
token can raise (`Except.error`); otherwise the line is skipped. -/
def parseJshcLine (line : List Char) : Except String (Option (String × ℚ × String)) :=
  if '=' ∈ lineBody line then
    if isDigitDot ((lineValue line).headD '#') then
      match pyFloat ((lineValue line).takeWhile isDigitDot) with
      | some num =>
          Except.ok (some (String.mk (lineKey line), num,
            String.mk ((((lineValue line).dropWhile isDigitDot).dropWhile
              Char.isWhitespace).takeWhile isWordChar)))
      | none => Except.error "ValueError"
    else Except.ok none
  else Except.ok none

/-- Python dict assignment `params[key] = v`: replace any prior binding. -/
def dictInsert (m : List (String × ℚ × String)) (k : String) (num : ℚ) (u : String) :
    List (String × ℚ × String) :=
  (m.filter (fun e => e.1 ≠ k)) ++ [(k, num, u)]

/-- `parse_jshc` over the file's lines, threading the params dict;
a `float` failure propagates as an uncaught exception. -/
def parse_jshc : List (List Char) → List (String × ℚ × String) →
    Except String (List (String × ℚ × String))
  | [], m => Except.ok m
  | line :: rest, m =>
    match parseJshcLine line with
    | Except.error e => Except.error e
    | Except.ok none => parse_jshc rest m
    | Except.ok (some (k, num, u)) => parse_jshc rest (dictInsert m k num u)

/-- Dict lookup `params[key]`: `none` models the `KeyError` a missing
required parameter raises later in `generate_model`. -/
def paramLookup (m : List (String × ℚ × String)) (k : String) : Option (ℚ × String) :=
  (m.find? (fun e => e.1 = k)).map (fun e => (e.2.1, e.2.2))

/-! ### The result aggregator (src/run_scenarios.py lines 277-304) -/

/-- One per-scenario CSV as `csv.DictReader` presents it: the header
(`fieldnames`) and the rows as key/value records. -/
structure Csv where
  fieldnames : List String
  rows : List (List (String × String))
deriving DecidableEq

/-- The scenario names in declaration order (line 283 iterates `SCENARIOS`). -/
def scenarioNames : List String :=
  SCENARIOS.map (fun s => s.1)

/-- `row['scenario'] = scenario_name` (line 294). -/
def tagRow (nm : String) (row : List (String × String)) : List (String × String) :=
  row ++ [("scenario", nm)]

/-- The aggregation loop of `combine_results` (lines 283-295): for each
scenario in declaration order, a missing file is skipped (warning only);
the first present file fixes the header as its fieldnames plus
`scenario`; every row is tagged and appended. -/
def combineAux (files : String → Option Csv) :
    List String → Option (List String) →
    List (List (String × String)) × Option (List String)
  | [], hdr => ([], hdr)
  | nm :: rest, hdr =>
    match files nm with
    | none => combineAux files rest hdr
    | some c =>
      let hdr' := match hdr with
        | none => some (c.fieldnames ++ ["scenario"])
        | some h => some h
      let res := combineAux files rest hdr'
      (c.rows.map (tagRow nm) ++ res.1, res.2)

/-- `combine_results`: the combined rows and the header. -/
def combine_results (files : String → Option Csv) :
    List (List (String × String)) × Option (List String) :=
  combineAux files scenarioNames none

/-! ### Concrete parameter values for instantiating the theorems -/

/-- A concrete, representative parameter set (the repository's
`configs/params.jshc` is produced outside src/; these values only
instantiate the universally quantified theorems). Fields in declaration
order of `Params`. -/
def testParams : Params :=
  ⟨50,      -- total_steps
   20,      -- initial_trees
   100,     -- max_trees
   2,       -- seedling_to_juvenile
   10,      -- juvenile_to_adult
   10,      -- seedling_mortality
   5,       -- juvenile_mortality
   2,       -- adult_mortality
   15,      -- seedling_invasive_pressure
   50,      -- invasive_pressure_threshold
   90, 60, 30,   -- fire high: seedling, juvenile, adult
   60, 40, 15,   -- fire medium
   30, 15, 5,    -- fire low
   4/5,     -- high_threshold
   1/2,     -- med_threshold
   15,      -- baseline_invasive
   85,      -- fire_high_invasive
   60,      -- fire_med_invasive
   30,      -- fire_low_invasive
   40,      -- establishment_threshold
   5,       -- base_growth
   10,      -- post_fire_bonus
   15,      -- post_fire_duration
   1/2,     -- tree_suppression
   10,      -- removal_duration
   5, 50⟩   -- age_min, age_max

/-! ### Specification-side definitions, following the spec's words, to be
compared with the source-derived definitions above -/

/-- Severity tiers of the specification's tiered lookup. -/
inductive Tier where
  | high : Tier
  | medium : Tier
  | low : Tier
deriving DecidableEq

/-- The spec's tier selection: strictly-greater comparisons, a severity
exactly equal to a threshold falls to the next-lower tier. -/
def tierOf (p : Params) (sev : ℚ) : Tier :=
  if sev > p.high_threshold then Tier.high
  else if sev > p.med_threshold then Tier.medium
  else Tier.low

/-- The spec's per-(tier, stage) fire-mortality table. -/
def tierMortality (p : Params) : Tier → Stage → ℚ
  | Tier.high, Stage.Seedling => p.fire_high_seedling
  | Tier.high, Stage.Juvenile => p.fire_high_juvenile
  | Tier.high, Stage.Adult => p.fire_high_adult
  | Tier.medium, Stage.Seedling => p.fire_med_seedling
  | Tier.medium, Stage.Juvenile => p.fire_med_juvenile
  | Tier.medium, Stage.Adult => p.fire_med_adult
  | Tier.low, Stage.Seedling => p.fire_low_seedling
  | Tier.low, Stage.Juvenile => p.fire_low_juvenile
  | Tier.low, Stage.Adult => p.fire_low_adult

/-- The spec's per-tier invasive-cover initialization table. -/
def tierInvasive (p : Params) : Tier → ℚ
  | Tier.high => p.fire_high_invasive
  | Tier.medium => p.fire_med_invasive
  | Tier.low => p.fire_low_invasive

/-- The spec's suppression term:
`treeSuppressionCoefficient * (numTrees / maxTreesPerPatch)`, `0` when
`numTrees = 0`. -/
def suppressionSpec (p : Params) (numTrees : Nat) : ℚ :=
  if numTrees = 0 then 0
  else p.tree_suppression * ((numTrees : ℚ) / (p.max_trees : ℚ))

/-- The spec's net growth:
`(baseGrowthRate + postFireBonus) * (1 − suppression) * (1 − prior/100) −
activeRemoval` with `activeRemoval = removalEffort if stepCount <
removalDuration else 0`. -/
def netGrowthSpec (p : Params) (rs : RuleSet) (prior : ℚ) (stepCount numTrees : Nat) : ℚ :=
  ((p.base_growth : ℚ) + postFireBonusStep p rs stepCount) * (1 - suppressionSpec p numTrees)
    * (1 - prior / 100)
    - (if stepCount < p.removal_duration then rs.removalEffort else 0)

/-- The spec's updated cover: `clamp(prior + netGrowth, 0, 100)`. -/
def invasiveCoverSpec (p : Params) (rs : RuleSet) (prior : ℚ) (stepCount numTrees : Nat) : ℚ :=
  max 0 (min 100 (prior + netGrowthSpec p rs prior stepCount numTrees))

/-- The number of stages an organism has passed: Seedling 0, Juvenile 1,
Adult 2; "forward" transitions increase it. -/
def stageIdx : Stage → Nat
  | Stage.Seedling => 0
  | Stage.Juvenile => 1
  | Stage.Adult => 2

/-! ## Theorems -/

/-- The nested-conditional clamp of line 192 is the `[0,100]` clamp. -/
theorem ite_clamp_eq (x : ℚ) :
    (if x < 0 then (0 : ℚ) else if x > 100 then 100 else x) = max 0 (min 100 x) := by
  rcases lt_or_le x 0 with h0 | h0
  · rw [if_pos h0, min_eq_right (by linarith), max_eq_left (by linarith)]
  · rcases le_or_lt x 100 with h1 | h1
    · rw [if_neg (by linarith), if_neg (by linarith), min_eq_right h1, max_eq_right h0]
    · rw [if_neg (by linarith), if_pos h1, min_eq_left (by linarith),
        max_eq_right (by norm_num)]

/-- The emitted suppression rule equals the spec's suppression term. -/
theorem treeSuppression_eq_spec (p : Params) (nt : Nat) :
    treeSuppressionStep p nt = suppressionSpec p nt := by
  unfold treeSuppressionStep suppressionSpec
  rcases Nat.eq_zero_or_pos nt with h | h
  · simp [h]
  · rw [if_pos h, if_neg (Nat.pos_iff_ne_zero.mp h)]

/-- The emitted `rawCover` chain equals `prior + netGrowthSpec`. -/
theorem rawCover_eq_spec (p : Params) (rs : RuleSet) (prior : ℚ) (sc nt : Nat) :
    rawCover p rs prior sc nt = prior + netGrowthSpec p rs prior sc nt := by
  unfold rawCover netGrowth growthRate netGrowthSpec activeRemoval
  rw [treeSuppression_eq_spec]

/-- C6: the per-step invasive-cover update follows the spec's recurrence —
suppression vanishing at `numTrees = 0`, active removal gated by
`stepCount < removalDuration`, logistic damping `(1 − prior/100)`, and the
final `clamp(prior + netGrowth, 0, 100)`; with `removalEffort = 12` and
`removalDuration = 10`, `activeRemoval` is 12 at `stepCount = 5` and 0 at
`stepCount = 15`. -/
theorem invasive_recurrence_matches_spec (p : Params) (rs : RuleSet) (prior : ℚ)
    (sc nt : Nat) :
    invasiveCoverStep p rs prior sc nt = invasiveCoverSpec p rs prior sc nt
    ∧ treeSuppressionStep p 0 = 0
    ∧ activeRemoval testParams (genRuleSet true 0 12) 5 = 12
    ∧ activeRemoval testParams (genRuleSet true 0 12) 15 = 0 := by
  refine ⟨?_, rfl, by decide, by decide⟩
  unfold invasiveCoverStep invasiveCoverSpec
  rw [rawCover_eq_spec]
  exact ite_clamp_eq _

/-- C3: `invasiveCover` stays in `[0,100]`: the initialization lands in
range whenever the configured tier constants are themselves at most 100
(they are percentages; non-negativity is automatic since the parser only
produces non-negative values), and the clamped per-step update is in range
for every prior value, step count and tree count. -/
theorem invasiveCover_in_range (p : Params) (rs : RuleSet)
    (h1 : p.baseline_invasive ≤ 100) (h2 : p.fire_high_invasive ≤ 100)
    (h3 : p.fire_med_invasive ≤ 100) (h4 : p.fire_low_invasive ≤ 100) :
    (∀ sev : ℚ, 0 ≤ invasiveInit p rs sev ∧ invasiveInit p rs sev ≤ 100)
    ∧ ∀ (prior : ℚ) (sc nt : Nat),
        0 ≤ invasiveCoverStep p rs prior sc nt
        ∧ invasiveCoverStep p rs prior sc nt ≤ 100 := by
  constructor
  · intro sev
    unfold invasiveInit invasiveInitFire
    split_ifs <;>
      exact ⟨Nat.cast_nonneg _, by exact_mod_cast ‹_›⟩
  · intro prior sc nt
    unfold invasiveCoverStep
    split_ifs with ha hb
    · norm_num
    · norm_num
    · exact ⟨not_lt.mp ha, not_lt.mp hb⟩

/-- Witness for `invasiveCover_in_range` at concrete parameters. -/
theorem invasiveCover_in_range_witness :
    (0 ≤ invasiveInit testParams (genRuleSet true 8 0) (9/10)
      ∧ invasiveInit testParams (genRuleSet true 8 0) (9/10) ≤ 100)
    ∧ (0 ≤ invasiveCoverStep testParams (genRuleSet true 8 0) 150 3 7
      ∧ invasiveCoverStep testParams (genRuleSet true 8 0) 150 3 7 ≤ 100) :=
  ⟨(invasiveCover_in_range testParams (genRuleSet true 8 0)
      (by decide) (by decide) (by decide) (by decide)).1 (9/10),
   (invasiveCover_in_range testParams (genRuleSet true 8 0)
      (by decide) (by decide) (by decide) (by decide)).2 150 3 7⟩

/-- C5: the emitted fire-mortality conditional nest is a tiered lookup on
(severity tier, life stage) with strictly-greater comparisons, the
invasive-cover initialization uses the same tier selection, a severity
exactly equal to a threshold falls out of that threshold's tier, and with
`highSeverityThreshold = 0.8` a severity of `0.95` selects the high-tier
Seedling mortality and the `fireHighInvasiveCover` initialization. -/
theorem fire_tier_lookup (p : Params) (sev : ℚ) (st : Stage) :
    fireMortalityFire p sev st = tierMortality p (tierOf p sev) st
    ∧ invasiveInitFire p sev = tierInvasive p (tierOf p sev)
    ∧ (sev = p.high_threshold → tierOf p sev ≠ Tier.high)
    ∧ (sev = p.med_threshold → tierOf p sev ≠ Tier.medium)
    ∧ fireMortalityFire testParams (95/100) Stage.Seedling
        = (testParams.fire_high_seedling : ℚ)
    ∧ invasiveInitFire testParams (95/100) = (testParams.fire_high_invasive : ℚ) := by
  refine ⟨?_, ?_, ?_, ?_,
    by norm_num [fireMortalityFire, testParams],
    by norm_num [invasiveInitFire, testParams]⟩
  · by_cases h1 : sev > p.high_threshold <;> by_cases h2 : sev > p.med_threshold <;>
      cases st <;> simp [fireMortalityFire, tierOf, tierMortality, h1, h2]
  · by_cases h1 : sev > p.high_threshold <;> by_cases h2 : sev > p.med_threshold <;>
      simp [invasiveInitFire, tierOf, tierInvasive, h1, h2]
  · intro he
    have hn : ¬ sev > p.high_threshold := by rw [he]; exact lt_irrefl _
    unfold tierOf
    rw [if_neg hn]
    split_ifs <;> decide
  · intro he
    have hn : ¬ sev > p.med_threshold := by rw [he]; exact lt_irrefl _
    unfold tierOf
    rw [if_neg hn]
    split_ifs <;> decide

/-- Witness for `fire_tier_lookup`: both threshold-tie hypotheses
discharged at the concrete thresholds. -/
theorem fire_tier_lookup_witness :
    tierOf testParams (4/5) ≠ Tier.high ∧ tierOf testParams (1/2) ≠ Tier.medium :=
  ⟨(fire_tier_lookup testParams (4/5) Stage.Seedling).2.2.1 rfl,
   (fire_tier_lookup testParams (1/2) Stage.Seedling).2.2.2.1 rfl⟩

/-- C4 counterexample: the claim's corollary "the count never exceeds
`min(numAdults, maxTreesPerPatch − numTrees)`" fails when the patch is
over capacity: with 1 adult, 101 trees on a 100-capacity patch and cover 0
(establishment permitted), the code creates 0 seedlings while the stated
bound is `min(1, −1) = −1 < 0`. -/
theorem seedling_cap_counterexample :
    ¬ (actualNewSeedlings testParams 1 101 0
        ≤ min ((1 : ℕ) : ℤ) (roomForSeedlings testParams 101)) := by decide

/-- C4 amended: the count equals `min(numAdults, maxTreesPerPatch −
numTrees)` when establishment is permitted and that minimum is positive,
and 0 otherwise; it is never negative; and it never exceeds the minimum
whenever the patch is within capacity (`numTrees ≤ maxTreesPerPatch`). -/
theorem actualNewSeedlings_spec (p : Params) (numAdults numTrees : Nat) (cover : ℚ) :
    actualNewSeedlings p numAdults numTrees cover =
      (if canEstablish p cover ∧ 0 < min (numAdults : ℤ) (roomForSeedlings p numTrees)
       then min (numAdults : ℤ) (roomForSeedlings p numTrees) else 0)
    ∧ 0 ≤ actualNewSeedlings p numAdults numTrees cover
    ∧ (numTrees ≤ p.max_trees →
        actualNewSeedlings p numAdults numTrees cover
          ≤ min (numAdults : ℤ) (roomForSeedlings p numTrees)) := by
  have heq : actualNewSeedlings p numAdults numTrees cover =
      (if canEstablish p cover ∧ 0 < min (numAdults : ℤ) (roomForSeedlings p numTrees)
       then min (numAdults : ℤ) (roomForSeedlings p numTrees) else 0) := by
    unfold actualNewSeedlings limitedSeedlings potentialSeedlings hasRoom roomForSeedlings
    by_cases hc : canEstablish p cover <;>
      simp only [hc, true_and, false_and, if_true, if_false] <;>
      split_ifs <;> omega
  refine ⟨heq, ?_, ?_⟩
  · rw [heq]
    split_ifs with h
    · exact le_of_lt h.2
    · exact le_refl 0
  · intro hle
    have hroom : 0 ≤ roomForSeedlings p numTrees := by
      unfold roomForSeedlings; omega
    rw [heq]
    split_ifs with h
    · exact le_refl _
    · exact le_min (Int.natCast_nonneg _) hroom

/-- Witness for `actualNewSeedlings_spec` at a within-capacity patch. -/
theorem actualNewSeedlings_spec_witness :
    actualNewSeedlings testParams 5 30 20 ≤ min ((5 : ℕ) : ℤ) (roomForSeedlings testParams 30) :=
  (actualNewSeedlings_spec testParams 5 30 20).2.2 (by decide)

/-- The full-run equality behind C2: `seedingBoost` is held by the rule
set but read by no rule, so runs with different `seedingBoost` and
otherwise equal knobs coincide step by step. -/
theorem runPatch_ignores_seedingBoost (p : Params) (hf : Bool) (a b : Nat) (re : ℚ)
    (draws : Nat → Nat → ℚ) :
    ∀ (k : Nat) (s : PatchState),
      runPatch p (genRuleSet hf a re) draws k s = runPatch p (genRuleSet hf b re) draws k s := by
  intro k
  induction k with
  | zero => intro s; rfl
  | succ k ih =>
    intro s
    rw [show runPatch p (genRuleSet hf a re) draws (k + 1) s
          = stepPatch p (genRuleSet hf a re) (draws k)
              (runPatch p (genRuleSet hf a re) draws k s) from rfl,
        ih s]
    exact rfl

/-- C2: the generated dynamics are independent of `seedingBoost`: the
rule sets of `fire_seeding` (seedingBoost 8) and `fire_only`
(seedingBoost 0), and of `fire_both` and `fire_removal`, yield the same
patch initialization, the same patch step, and the same whole run under
identical random draws. -/
theorem seedingBoost_dynamically_inert (p : Params) (draws : Nat → ℚ) (s : PatchState)
    (ext : ℚ) (ages : Nat → Nat) (rolls : Nat → ℚ) (draws2 : Nat → Nat → ℚ) (k : Nat) :
    stepPatch p (genRuleSet true 8 0) draws s = stepPatch p (genRuleSet true 0 0) draws s
    ∧ stepPatch p (genRuleSet true 8 12) draws s = stepPatch p (genRuleSet true 0 12) draws s
    ∧ initPatch p (genRuleSet true 8 0) ext ages rolls
        = initPatch p (genRuleSet true 0 0) ext ages rolls
    ∧ initPatch p (genRuleSet true 8 12) ext ages rolls
        = initPatch p (genRuleSet true 0 12) ext ages rolls
    ∧ runPatch p (genRuleSet true 8 0) draws2 k (initPatch p (genRuleSet true 8 0) ext ages rolls)
        = runPatch p (genRuleSet true 0 0) draws2 k
            (initPatch p (genRuleSet true 0 0) ext ages rolls)
    ∧ runPatch p (genRuleSet true 8 12) draws2 k
          (initPatch p (genRuleSet true 8 12) ext ages rolls)
        = runPatch p (genRuleSet true 0 12) draws2 k
            (initPatch p (genRuleSet true 0 12) ext ages rolls) := by
  refine ⟨rfl, rfl, rfl, rfl, ?_, ?_⟩
  · rw [show initPatch p (genRuleSet true 8 0) ext ages rolls
          = initPatch p (genRuleSet true 0 0) ext ages rolls from rfl]
    exact runPatch_ignores_seedingBoost p true 8 0 0 draws2 k _
  · rw [show initPatch p (genRuleSet true 8 12) ext ages rolls
          = initPatch p (genRuleSet true 0 12) ext ages rolls from rfl]
    exact runPatch_ignores_seedingBoost p true 8 0 12 draws2 k _

/-- C1: recruitment appends exactly `actualNewSeedlings` copies of
`newSeedling` to the stepped survivors; a new seedling has age 0, state
Seedling, and `alive = true` unconditionally — no birth fire-mortality
roll is applied to it, so its survival at creation is certain. -/
theorem new_seedlings_age_zero_no_fire_roll (p : Params) (rs : RuleSet)
    (draws : Nat → ℚ) (s : PatchState) :
    (stepPatch p rs draws s).pop =
      stepAll p
          (invasiveCoverStep p rs s.invasiveCover (s.stepCount + 1)
            ((s.pop.filter (fun o => o.alive)).length))
          draws 0 (s.pop.filter (fun o => o.alive))
        ++ List.replicate
            (actualNewSeedlings p (numAdultsOf (s.pop.filter (fun o => o.alive)))
              ((s.pop.filter (fun o => o.alive)).length)
              (invasiveCoverStep p rs s.invasiveCover (s.stepCount + 1)
                ((s.pop.filter (fun o => o.alive)).length))).toNat
            newSeedling
    ∧ newSeedling.age = 0
    ∧ newSeedling.state = Stage.Seedling
    ∧ newSeedling.alive = true :=
  ⟨rfl, rfl, rfl, rfl⟩

/-- Every organism produced by `stepAll` is some input organism stepped
once with some draw. -/
theorem mem_stepAll (p : Params) (cover : ℚ) (draws : Nat → ℚ) :
    ∀ (i : Nat) (l : List Organism) (o' : Organism),
      o' ∈ stepAll p cover draws i l →
      ∃ o ∈ l, ∃ r, o' = stepOrganism p cover r o := by
  intro i l
  induction l generalizing i with
  | nil => intro o' h; simp [stepAll] at h
  | cons a rest ih =>
    intro o' h
    rw [stepAll] at h
    rcases List.mem_cons.mp h with h1 | h2
    · exact ⟨a, List.mem_cons_self a rest, draws i, h1⟩
    · rcases ih (i + 1) o' h2 with ⟨o, ho, r, heq⟩
      exact ⟨o, List.mem_cons_of_mem a ho, r, heq⟩

/-- C7: life stages only move forward (`stageIdx` never decreases), a
state transition happens only when the organism is alive after this
step's mortality roll, the next population is exactly the stepped
survivors plus fresh seedlings, and every member of it is either a prior
member that was alive (stepped once) or a fresh seedling — dead organisms
are filtered out by `NativeTree.start` and never return. -/
theorem lifecycle_invariants (p : Params) (rs : RuleSet) (cover r : ℚ) (o : Organism)
    (draws : Nat → ℚ) (s : PatchState) (pop : List Organism) (c : ℚ) (n : Nat) :
    stageIdx o.state ≤ stageIdx (stepOrganism p cover r o).state
    ∧ ((stepOrganism p cover r o).state ≠ o.state → (stepOrganism p cover r o).alive = true)
    ∧ (stepPatch p rs draws s).pop =
        stepAll p
            (invasiveCoverStep p rs s.invasiveCover (s.stepCount + 1)
              ((s.pop.filter (fun x => x.alive)).length))
            draws 0 (s.pop.filter (fun x => x.alive))
          ++ List.replicate
              (actualNewSeedlings p (numAdultsOf (s.pop.filter (fun x => x.alive)))
                ((s.pop.filter (fun x => x.alive)).length)
                (invasiveCoverStep p rs s.invasiveCover (s.stepCount + 1)
                  ((s.pop.filter (fun x => x.alive)).length))).toNat
              newSeedling
    ∧ (∀ o' ∈ stepAll p c draws 0 (pop.filter (fun x => x.alive))
          ++ List.replicate n newSeedling,
        (∃ o₀ ∈ pop, o₀.alive = true ∧ ∃ r₀, o' = stepOrganism p c r₀ o₀)
        ∨ o' = newSeedling) := by
  refine ⟨?_, ?_, rfl, ?_⟩
  · rcases o with ⟨age, st, al⟩
    cases st <;> simp only [stepOrganism] <;> (try split_ifs) <;>
      simp only [stageIdx] <;> omega
  · rcases o with ⟨age, st, al⟩
    cases st
    · simp only [stepOrganism]
      split_ifs with h
      · intro _; exact h.2
      · intro hne; exact absurd rfl hne
    · simp only [stepOrganism]
      split_ifs with h
      · intro _; exact h.2
      · intro hne; exact absurd rfl hne
    · intro hne; exact absurd rfl hne
  · intro o' ho'
    rcases List.mem_append.mp ho' with h | h
    · rcases mem_stepAll p c draws 0 (pop.filter (fun x => x.alive)) o' h with ⟨o₀, ho₀, r₀, heq⟩
      rcases List.mem_filter.mp ho₀ with ⟨hmem, halive⟩
      exact Or.inl ⟨o₀, hmem, halive, r₀, heq⟩
    · exact Or.inr (List.eq_of_mem_replicate h)

/-- Witness for `lifecycle_invariants`: a juvenile that survives its roll
and comes of age transitions to Adult while alive, and a fresh seedling
appended by recruitment is accounted for by the disjunction. -/
theorem lifecycle_invariants_witness :
    (stepOrganism testParams 0 99 ⟨9, Stage.Juvenile, true⟩).alive = true
    ∧ ((∃ o₀ ∈ [(⟨30, Stage.Adult, true⟩ : Organism)], o₀.alive = true
          ∧ ∃ r₀, newSeedling = stepOrganism testParams 0 r₀ o₀)
        ∨ newSeedling = newSeedling) :=
  ⟨(lifecycle_invariants testParams (genRuleSet true 0 0) 0 99 ⟨9, Stage.Juvenile, true⟩
      (fun _ => 99) ⟨[], 0, 0, 0⟩ [] 0 0).2.1 (by decide),
   (lifecycle_invariants testParams (genRuleSet true 0 0) 0 99 ⟨9, Stage.Juvenile, true⟩
      (fun _ => 99) ⟨[], 0, 0, 0⟩ [(⟨30, Stage.Adult, true⟩ : Organism)] 0 1).2.2.2
     newSeedling (by decide)⟩

/-- C8 counterexample: "the birth-time fire-mortality roll never kills an
organism" fails as stated: `alive.init = fireDeathRoll > fireMortality`
uses a strict comparison, so in a no-fire scenario (mortality 0) an
organism whose uniform draw is exactly 0 is dead at creation. -/
theorem no_fire_birth_roll_counterexample :
    (initOrganism testParams (genRuleSet false 0 0) 0 30 0).alive = false := by decide

/-- C8 amended: with `hasFire = false`, `fireSeverity` is 0 at
initialization and at every later step, the fire-mortality probability is
0 for every severity and stage, invasive cover initializes to the single
`baselineInvasiveCover` constant, and the birth roll spares every organism
whose draw is positive (it kills only on the probability-zero draw of
exactly 0). -/
theorem no_fire_scenario_spec (p : Params) (rs : RuleSet) (hf : rs.has_fire = false)
    (ext : ℚ) (ages : Nat → Nat) (rolls : Nat → ℚ) (draws : Nat → Nat → ℚ) :
    (initPatch p rs ext ages rolls).fireSeverity = 0
    ∧ (∀ k, (runPatch p rs draws k (initPatch p rs ext ages rolls)).fireSeverity = 0)
    ∧ (∀ (sev : ℚ) (st : Stage), fireMortality p rs sev st = 0)
    ∧ (∀ sev : ℚ, invasiveInit p rs sev = (p.baseline_invasive : ℚ))
    ∧ (∀ (sev : ℚ) (age : Nat) (roll : ℚ), 0 < roll →
        (initOrganism p rs sev age roll).alive = true) := by
  have hsev : (initPatch p rs ext ages rolls).fireSeverity = 0 := by
    simp [initPatch, hf]
  refine ⟨hsev, ?_, ?_, ?_, ?_⟩
  · intro k
    induction k with
    | zero => exact hsev
    | succ k ih =>
      rw [show runPatch p rs draws (k + 1) (initPatch p rs ext ages rolls)
            = stepPatch p rs (draws k) (runPatch p rs draws k (initPatch p rs ext ages rolls))
          from rfl]
      exact ih
  · intro sev st
    simp [fireMortality, hf]
  · intro sev
    simp [invasiveInit, hf]
  · intro sev age roll hr
    show decide (roll > fireMortality p rs sev (stateInit p age)) = true
    rw [decide_eq_true_iff]
    rw [show fireMortality p rs sev (stateInit p age) = 0 by simp [fireMortality, hf]]
    exact hr

/-- Witness for `no_fire_scenario_spec` at concrete inputs. -/
theorem no_fire_scenario_spec_witness :
    (initPatch testParams (genRuleSet false 0 0) (9/10) (fun _ => 30) (fun _ => 50)).fireSeverity
        = 0
    ∧ (initOrganism testParams (genRuleSet false 0 0) 0 30 (1/2)).alive = true :=
  ⟨(no_fire_scenario_spec testParams (genRuleSet false 0 0) rfl (9/10) (fun _ => 30)
      (fun _ => 50) (fun _ _ => 50)).1,
   (no_fire_scenario_spec testParams (genRuleSet false 0 0) rfl (9/10) (fun _ => 30)
      (fun _ => 50) (fun _ _ => 50)).2.2.2.2 0 30 (1/2) (by norm_num)⟩

/-- The rows of `combineAux` do not depend on the header accumulator. -/
theorem combineAux_fst (files : String → Option Csv) :
    ∀ (l : List String) (hdr : Option (List String)),
      (combineAux files l hdr).1 =
        (l.map (fun nm =>
          match files nm with
          | none => []
          | some c => c.rows.map (tagRow nm))).flatten := by
  intro l
  induction l with
  | nil => intro hdr; rfl
  | cons nm rest ih =>
    intro hdr
    show (match files nm with
      | none => combineAux files rest hdr
      | some c =>
        let hdr' := match hdr with
          | none => some (c.fieldnames ++ ["scenario"])
          | some h => some h
        let res := combineAux files rest hdr'
        (c.rows.map (tagRow nm) ++ res.1, res.2)).1 = _
    cases hnm : files nm with
    | none => simpa [hnm] using ih hdr
    | some c => simpa [hnm] using ih _

/-- Once the header is set, `combineAux` keeps it. -/
theorem combineAux_snd_some (files : String → Option Csv) :
    ∀ (l : List String) (h : List String),
      (combineAux files l (some h)).2 = some h := by
  intro l
  induction l with
  | nil => intro h; rfl
  | cons nm rest ih =>
    intro h
    show (match files nm with
      | none => combineAux files rest (some h)
      | some c =>
        let res := combineAux files rest (some h)
        (c.rows.map (tagRow nm) ++ res.1, res.2)).2 = some h
    cases files nm with
    | none => exact ih h
    | some c => simpa using ih h

/-- Starting with no header, the final header is the first present
scenario's fieldnames plus the `scenario` column. -/
theorem combineAux_snd_none (files : String → Option Csv) :
    ∀ l : List String,
      (combineAux files l none).2 =
        ((l.filterMap files).head?).map (fun c => c.fieldnames ++ ["scenario"]) := by
  intro l
  induction l with
  | nil => rfl
  | cons nm rest ih =>
    show (match files nm with
      | none => combineAux files rest none
      | some c =>
        let res := combineAux files rest (some (c.fieldnames ++ ["scenario"]))
        (c.rows.map (tagRow nm) ++ res.1, res.2)).2 = _
    cases hnm : files nm with
    | none => simpa [List.filterMap_cons, hnm] using ih
    | some c => simp [List.filterMap_cons, hnm, combineAux_snd_some files rest]

/-- C9: the combined dataset is exactly the present scenarios' rows, each
tagged with its scenario name, in scenario declaration order then original
row order; its row count is the sum of the present scenarios' row counts
(a missing file contributes zero rows without aborting); and the header is
the first present scenario's schema plus the `scenario` column. -/
theorem combine_results_spec (files : String → Option Csv) :
    (combine_results files).1 =
      (scenarioNames.map (fun nm =>
        match files nm with
        | none => []
        | some c => c.rows.map (tagRow nm))).flatten
    ∧ (combine_results files).1.length =
      (scenarioNames.map (fun nm =>
        match files nm with
        | none => 0
        | some c => c.rows.length)).sum
    ∧ (combine_results files).2 =
      ((scenarioNames.filterMap files).head?).map (fun c => c.fieldnames ++ ["scenario"]) := by
  refine ⟨combineAux_fst files scenarioNames none, ?_, combineAux_snd_none files scenarioNames⟩
  rw [show (combine_results files).1 = _ from combineAux_fst files scenarioNames none]
  rw [List.length_flatten, List.map_map]
  congr 1
  refine List.map_congr_left (fun nm _ => ?_)
  cases hnm : files nm <;> simp [hnm]

/-- `pyFloat` never produces a negative value: its input alphabet has no
sign, so the value is a sum of non-negative terms. -/
theorem pyFloat_nonneg (tok : List Char) (v : ℚ) (h : pyFloat tok = some v) : 0 ≤ v := by
  unfold pyFloat at h
  rcases hs : tok.splitOn '.' with _ | ⟨a, _ | ⟨b, _ | ⟨c, r⟩⟩⟩ <;> rw [hs] at h <;> simp at h
  · rcases h with ⟨ha, hv⟩
    rw [← hv]
    positivity
  · rcases h with ⟨hab, hv⟩
    rw [← hv]
    positivity

/-- A recorded line yields a non-negative value, and only lines whose
stripped value starts with a digit-or-dot character are recorded. -/
theorem parseJshcLine_some (line : List Char) (k : String) (v : ℚ) (u : String)
    (h : parseJshcLine line = Except.ok (some (k, v, u))) :
    0 ≤ v ∧ ∃ c rest, lineValue line = c :: rest ∧ isDigitDot c = true := by
  unfold parseJshcLine at h
  split_ifs at h with he hd
  · cases hf : pyFloat ((lineValue line).takeWhile isDigitDot) with
    | none => rw [hf] at h; exact absurd h (by simp)
    | some num =>
      rw [hf] at h
      simp only [Except.ok.injEq, Option.some.injEq, Prod.mk.injEq] at h
      constructor
      · rw [← h.2.1]
        exact pyFloat_nonneg _ _ hf
      · cases hv : lineValue line with
        | nil => rw [hv] at hd; exact absurd hd (by decide)
        | cons c rest =>
          rw [hv] at hd
          exact ⟨c, rest, rfl, by simpa using hd⟩
  · exact absurd h (by simp)
  · exact absurd h (by simp)

/-- Dict assignment preserves "all stored values non-negative". -/
theorem dictInsert_nonneg (m : List (String × ℚ × String)) (k : String) (num : ℚ)
    (u : String) (hm : ∀ e ∈ m, 0 ≤ e.2.1) (hn : 0 ≤ num) :
    ∀ e ∈ dictInsert m k num u, 0 ≤ e.2.1 := by
  intro e he
  rcases List.mem_append.mp he with h | h
  · exact hm e (List.mem_filter.mp h).1
  · rw [List.mem_singleton.mp h]
    exact hn

/-- Every value the parser stores is non-negative (invariant over the
whole file). -/
theorem parse_jshc_all_nonneg :
    ∀ (lines : List (List Char)) (m0 m : List (String × ℚ × String)),
      (∀ e ∈ m0, 0 ≤ e.2.1) → parse_jshc lines m0 = Except.ok m → ∀ e ∈ m, 0 ≤ e.2.1 := by
  intro lines
  induction lines with
  | nil =>
    intro m0 m h0 h
    injection h with h'
    rw [← h']
    exact h0
  | cons line rest ih =>
    intro m0 m h0 h
    rw [show parse_jshc (line :: rest) m0
          = (match parseJshcLine line with
             | Except.error e => Except.error e
             | Except.ok none => parse_jshc rest m0
             | Except.ok (some (k, num, u)) => parse_jshc rest (dictInsert m0 k num u))
        from rfl] at h
    cases hl : parseJshcLine line with
    | error e => rw [hl] at h; exact absurd h (by simp)
    | ok o =>
      cases o with
      | none => rw [hl] at h; exact ih m0 m h0 h
      | some kvu =>
        obtain ⟨k, num, u⟩ := kvu
        rw [hl] at h
        exact ih _ m
          (dictInsert_nonneg m0 k num u h0 (parseJshcLine_some line k num u hl).1) h

/-- C10: the parser stores only non-negative values — a key is recorded
only when the stripped value text starts a digits/dots token (whose
parsed value is then non-negative) — and a line with a negative value
such as `x = -5` is silently omitted: parsing succeeds with no entry and
no error, and the key surfaces only later as a missing lookup. -/
theorem parse_jshc_nonneg_spec :
    (∀ (line : List Char) (k : String) (v : ℚ) (u : String),
        parseJshcLine line = Except.ok (some (k, v, u)) →
          0 ≤ v ∧ ∃ c rest, lineValue line = c :: rest ∧ isDigitDot c = true)
    ∧ (∀ (lines : List (List Char)) (m : List (String × ℚ × String)),
        parse_jshc lines [] = Except.ok m → ∀ e ∈ m, 0 ≤ e.2.1)
    ∧ parse_jshc [("x = -5".data)] [] = Except.ok []
    ∧ paramLookup [] "x" = none :=
  ⟨parseJshcLine_some,
   fun lines m h => parse_jshc_all_nonneg lines [] m (by simp) h,
   rfl, rfl⟩

/-- Witness for `parse_jshc_nonneg_spec` on the line `a = 3`. -/
theorem parse_jshc_nonneg_spec_witness :
    ((0 : ℚ) ≤ 3 ∧ ∃ c rest, lineValue ("a = 3".data) = c :: rest ∧ isDigitDot c = true)
    ∧ (0 : ℚ) ≤ (("a", (3 : ℚ), "").2.1) :=
  ⟨parse_jshc_nonneg_spec.1 ("a = 3".data) "a" 3 "" rfl,
   parse_jshc_nonneg_spec.2.1 ["a = 3".data] [("a", 3, "")] rfl ("a", 3, "") (by simp)⟩

end Josh
